import Mathlib

/-!
Shallow embedding of the `nasa.py` library (Snipy7374/nasa.py): the lazy
asset layer (`nasa/asset.py`), the HTTP transport (`nasa/_http.py`) and the
client validation / URL-building logic (`nasa/client.py`).

Python strings are modelled as `List Char`; byte strings as `List Nat`.
Network interaction is modelled by an oracle `Net : Chars → Bytes` giving the
body served at each URL, together with an explicit list of the URLs actually
fetched, so that "performs a network fetch" is an inspectable fact.
-/

abbrev Chars := List Char
abbrev Bytes := List Nat

/-- The character `{` (written via its code point). -/
def lbrace : Char := Char.ofNat 123

/-- The character `}` (written via its code point). -/
def rbrace : Char := Char.ofNat 125

/-! ### Python string splitting

`splitOnP p cs` mirrors Python `str.split(sep)` for a one-character
separator recognised by `p`: it cuts at every separator and keeps empty
groups.  The result is returned as (first group, remaining groups). -/

def splitOnP (p : Char → Bool) : Chars → Chars × List Chars
  | [] => ([], [])
  | c :: cs =>
    let r := splitOnP p cs
    if p c then ([], r.1 :: r.2) else (c :: r.1, r.2)

def splitOnPList (p : Char → Bool) (cs : Chars) : List Chars :=
  (splitOnP p cs).1 :: (splitOnP p cs).2

/-- Python `str.split()` with no argument: split on whitespace runs,
discarding empty groups. -/
def pySplitWs (cs : Chars) : List Chars :=
  (splitOnPList Char.isWhitespace cs).filter (fun g => !g.isEmpty)

/-- Python `'/'.join(groups)` (and joins in general). -/
def joinWith (sep : Chars) : List Chars → Chars
  | [] => []
  | [g] => g
  | g :: gs => g ++ sep ++ joinWith sep gs

/-! ### Decimal digits -/

def digitChar (n : Nat) : Char := Char.ofNat (48 + n)

def digitVal (c : Char) : Nat := c.toNat - 48

def decodeDigits (cs : Chars) : Nat := cs.foldl (fun a c => 10 * a + digitVal c) 0

/-- Zero-padded two digit rendering, as CPython `strftime` `%m` / `%d`. -/
def pad2 (n : Nat) : Chars := [digitChar (n / 10 % 10), digitChar (n % 10)]

/-- Zero-padded four digit rendering, as the documented CPython `strftime`
`%Y` output for years up to 9999. -/
def pad4 (n : Nat) : Chars :=
  [digitChar (n / 1000 % 10), digitChar (n / 100 % 10),
   digitChar (n / 10 % 10), digitChar (n % 10)]

/-! ### Calendar dates: `datetime.strptime(date, "%Y-%m-%d")` and
`datetime.strftime(date, "%Y-%m-%d")` (`_BaseClient._validate_date` and
`_BaseClient._date_to_str` delegate to these). -/

def isLeapYear (y : Nat) : Bool := y % 4 = 0 && (y % 100 ≠ 0 || y % 400 = 0)

def daysInMonth (y m : Nat) : Nat :=
  if m = 2 then (if isLeapYear y then 29 else 28)
  else if m = 4 ∨ m = 6 ∨ m = 9 ∨ m = 11 then 30
  else 31

/-- A calendar date accepted by `datetime(year, month, day)` with a year
printable as four digits. -/
def ValidYmd (y m d : Nat) : Prop :=
  1 ≤ y ∧ y ≤ 9999 ∧ 1 ≤ m ∧ m ≤ 12 ∧ 1 ≤ d ∧ d ≤ daysInMonth y m

instance (y m d : Nat) : Decidable (ValidYmd y m d) := by
  unfold ValidYmd; infer_instance

/-- Maximal digit run at the front of a character list (the regex engine of
`_strptime` consumes bounded digit runs; for the `%Y-%m-%d` format the
accepted strings coincide with this greedy reading). -/
def spanDigits : Chars → Chars × Chars
  | [] => ([], [])
  | c :: cs =>
    if c.isDigit then
      let r := spanDigits cs
      (c :: r.1, r.2)
    else ([], c :: cs)

/-- Embedding of `datetime.strptime(s, "%Y-%m-%d")`: exactly four year digits, a dash,
one or two month digits, a dash, one or two day digits consuming the whole
string, with the month/day ranges checked by the `datetime` constructor.
Returns `none` where Python raises `ValueError`. -/
def parseDateChars (cs : Chars) : Option (Nat × Nat × Nat) :=
  match cs with
  | c1 :: c2 :: c3 :: c4 :: sep1 :: rest =>
    if c1.isDigit && c2.isDigit && c3.isDigit && c4.isDigit && (sep1 = '-' : Bool) then
      let y := decodeDigits [c1, c2, c3, c4]
      let mspan := spanDigits rest
      match mspan.2 with
      | sep2 :: rest2 =>
        if sep2 = '-' ∧ (mspan.1.length = 1 ∨ mspan.1.length = 2) then
          let m := decodeDigits mspan.1
          let dspan := spanDigits rest2
          if dspan.2 = [] ∧ (dspan.1.length = 1 ∨ dspan.1.length = 2) then
            let d := decodeDigits dspan.1
            if ValidYmd y m d then some (y, m, d) else none
          else none
        else none
      | [] => none
    else none
  | _ => none

/-- Embedding of `datetime.strftime(date, "%Y-%m-%d")` for a date held as a `(y, m, d)`
triple: four year digits, two month digits, two day digits, dash-separated
(the documented zero-padded rendering). -/
def formatDateChars (y m d : Nat) : Chars :=
  pad4 y ++ '-' :: (pad2 m ++ '-' :: pad2 d)

/-! ### Enums (`nasa/enums.py`) -/

/-- Embedding of `EpicImageType` string-enum members. -/
inductive EpicImageType where
  | natural
  | natural_date
  | enhanced
  | enhanced_date
deriving DecidableEq

/-- The wire string of each `EpicImageType` member. -/
def EpicImageType.value : EpicImageType → Chars
  | .natural => "natural".toList
  | .natural_date => "natural/date".toList
  | .enhanced => "enhanced".toList
  | .enhanced_date => "enhanced/date".toList

/-- Embedding of `FileTypes` string-enum members. -/
inductive FileTypes where
  | png
  | jpg
  | thumbs
deriving DecidableEq

/-- The wire string of each `FileTypes` member. -/
def FileTypes.value : FileTypes → Chars
  | .png => "png".toList
  | .jpg => "jpg".toList
  | .thumbs => "thumbs".toList

/-- Embedding of `Endpoints.EPIC_IMG`. -/
def EPIC_IMG : Chars := "https://epic.gsfc.nasa.gov".toList

/-- Python `needle in hay` on strings: substring containment. -/
def containsSub (needle hay : Chars) : Bool :=
  match hay with
  | [] => needle.isEmpty
  | _ :: t => needle.isPrefixOf hay || containsSub needle t

/-! ### `_BaseClient._epic_url_image_builder` (`nasa/client.py` lines 127-138) -/

/-- The extension slot of the EPIC URL: the supplied extension's wire string,
or the literal `\x7b\x7d` placeholder when none was supplied
(`image_as if image_as else "\x7b\x7d"`; every `FileTypes` value is truthy). -/
def epic_ext_seg (image_as : Option FileTypes) : Chars :=
  match image_as with
  | some ft => ft.value
  | none => [lbrace, rbrace]

/-- Embedding of `_BaseClient._epic_url_image_builder`.  Returns `none` where Python would
raise `IndexError` (`date.split()[0]` on an all-whitespace date). -/
def epic_url_image_builder (identifier date : Chars) (image_type : EpicImageType)
    (image_as : Option FileTypes) : Option (Chars × Chars) :=
  (pySplitWs date).head?.map fun tok =>
    let date2 := joinWith ['/'] (splitOnPList (fun c => c == '-') tok)
    let image_type2 :=
      if containsSub "natural".toList image_type.value
      then "natural".toList else "enhanced".toList
    let pfx :=
      if image_type2 = "natural".toList
      then "epic_1b".toList else "epic_RGB".toList
    let ext := epic_ext_seg image_as
    (EPIC_IMG ++ "/archive/".toList ++ image_type2 ++ "/".toList ++ date2 ++
      "/".toList ++ ext ++ "/".toList ++ pfx ++ "_".toList ++ identifier ++
      ".".toList ++ ext,
      "partial".toList)

/-- The EPIC asset as constructed by `get_epic_images`: url and url-state come
from the builder's tuple, the byte cache starts absent. -/
structure SyncAsset where
  url : Chars
  bytesCache : Option Bytes
  urlState : Chars
deriving DecidableEq

structure AsyncAsset where
  url : Chars
  bytesCache : Option Bytes
  urlState : Chars
deriving DecidableEq

/-- Embedding of `SyncAsset(url=..., http_client=..., url_state=...)` for an EPIC image
(`NasaSyncClient.get_epic_images` lines 443-453). -/
def mkEpicSyncAsset (identifier date : Chars) (image_type : EpicImageType)
    (image_as : Option FileTypes) : Option SyncAsset :=
  (epic_url_image_builder identifier date image_type image_as).map
    (fun u => ⟨u.1, none, u.2⟩)

/-- Embedding of `AsyncAsset(...)` for an EPIC image (`NasaAsyncClient.get_epic_images`). -/
def mkEpicAsyncAsset (identifier date : Chars) (image_type : EpicImageType)
    (image_as : Option FileTypes) : Option AsyncAsset :=
  (epic_url_image_builder identifier date image_type image_as).map
    (fun u => ⟨u.1, none, u.2⟩)

/-! ### Lazy assets (`nasa/asset.py`) -/

/-- The network: the byte body served at each URL.  Determinism models a
stable upstream during one client session. -/
abbrev Net := Chars → Bytes

/-- Embedding of `HTTPClient.get_image_as_bytes` / `AsyncHTTPClient.get_image_as_bytes`:
empty URL short-circuits to `b""` without a request; otherwise one GET.
The second component lists the URLs actually fetched. -/
def get_image_as_bytes (net : Net) (url : Chars) : Bytes × List Chars :=
  if url = [] then ([], []) else (net url, [url])

/-- The `asset_as` argument of `SyncAsset.read`: `None` (the default), a
`FileTypes` member, or any other object (`isinstance(asset_as, FileTypes)`
fails for the first and last). -/
inductive AssetAs where
  | pyNone
  | fileType (ft : FileTypes)
  | other
deriving DecidableEq

/-- Embedding of `str.format(v, v)` on a URL holding at most two `\x7b\x7d` placeholders:
each placeholder is replaced by `v` (the two positional arguments are the
same value in `SyncAsset.read`). -/
def formatBraces (cs v : Chars) : Chars :=
  match cs with
  | [] => []
  | [c] => [c]
  | c1 :: c2 :: rest =>
    if c1 = lbrace ∧ c2 = rbrace then v ++ formatBraces rest v
    else c1 :: formatBraces (c2 :: rest) v

/-- Outcome of `SyncAsset.read`: the Python return value or raised
`ValueError`, the asset's state afterwards, and the URLs fetched. -/
structure SyncReadOut where
  result : Except Unit (Bytes × SyncAsset)
  fetched : List Chars

/-- Embedding of `SyncAsset.read` (`nasa/asset.py` lines 191-209): on a `"partial"` URL
state it demands a `FileTypes` argument (else `ValueError`), substitutes it
into the placeholders, then fetches and overwrites the byte cache.  The URL
state itself is never updated. -/
def SyncAsset.read (net : Net) (a : SyncAsset) (asset_as : AssetAs) : SyncReadOut :=
  if a.urlState = "partial".toList then
    match asset_as with
    | .fileType ft =>
      let u := formatBraces a.url ft.value
      let r := get_image_as_bytes net u
      { result := .ok (r.1, ⟨u, some r.1, a.urlState⟩), fetched := r.2 }
    | _ => { result := .error (), fetched := [] }
  else
    let r := get_image_as_bytes net a.url
    { result := .ok (r.1, ⟨a.url, some r.1, a.urlState⟩), fetched := r.2 }

/-- Embedding of `AsyncAsset.read` (`nasa/asset.py` lines 77-91): always fetches the URL
as stored; there is no `asset_as` parameter and no URL-state check. -/
def AsyncAsset.read (net : Net) (a : AsyncAsset) : Bytes × AsyncAsset × List Chars :=
  let r := get_image_as_bytes net a.url
  (r.1, ⟨a.url, some r.1, a.urlState⟩, r.2)

/-- Embedding of `SyncAsset.bytes_asset` (lines 211-223): `if not self._bytes: return
self.read()` — an absent or empty cache triggers `read()` with the default
`asset_as=None`; otherwise the cached bytes are returned without fetching. -/
def SyncAsset.bytes_asset (net : Net) (a : SyncAsset) : SyncReadOut :=
  match a.bytesCache with
  | none => a.read net .pyNone
  | some [] => a.read net .pyNone
  | some bs => { result := .ok (bs, a), fetched := [] }

/-- Embedding of `AsyncAsset.bytes_asset` (lines 93-109): returns the cache as-is
(`None` when absent); performs no fetch. -/
def AsyncAsset.bytes_asset (a : AsyncAsset) : Option Bytes :=
  a.bytesCache

/-- Embedding of `SyncAsset.__eq__` (lines 185-186): `isinstance` check plus URL equality;
the byte cache and URL state are not consulted. -/
def SyncAsset.eqPy (a b : SyncAsset) : Bool := a.url == b.url

/-- Embedding of `AsyncAsset.__eq__` (lines 71-72). -/
def AsyncAsset.eqPy (a b : AsyncAsset) : Bool := a.url == b.url

/-- Embedding of `_BaseAsset.__hash__` (asset.py lines 39-40): `hash(self._url)`. -/
def baseAssetHashMethod (url : Chars) : UInt64 := hash url

/-- Embedding of the `__hash__` slot of `SyncAsset`.  A Python class body
that defines `__eq__` without also defining `__hash__` has `__hash__`
implicitly set to `None`; `SyncAsset` defines `__eq__` (asset.py line 185)
and never sets `__hash__`, so the inherited `_BaseAsset.__hash__` is
shadowed by `None` and unreachable from instances. -/
def SyncAsset.hashSlot : Option (Chars → UInt64) := none

/-- Embedding of the `__hash__` slot of `AsyncAsset`: likewise `None`,
because `AsyncAsset` defines `__eq__` (asset.py line 71) without
`__hash__`. -/
def AsyncAsset.hashSlot : Option (Chars → UInt64) := none

/-- Embedding of a `hash(x)` call through a `__hash__` slot: a `None` slot
makes the instance unhashable — `hash` raises `TypeError`. -/
def pyHash (slot : Option (Chars → UInt64)) (url : Chars) : Except Unit UInt64 :=
  match slot with
  | some f => .ok (f url)
  | none => .error ()

/-- Embedding of `hash(asset)` for a `SyncAsset` instance. -/
def SyncAsset.hashPy (a : SyncAsset) : Except Unit UInt64 :=
  pyHash SyncAsset.hashSlot a.url

/-- Embedding of `hash(asset)` for an `AsyncAsset` instance. -/
def AsyncAsset.hashPy (a : AsyncAsset) : Except Unit UInt64 :=
  pyHash AsyncAsset.hashSlot a.url

/-! ### Transport (`nasa/_http.py`) -/

/-- An HTTP response as seen by the transport layer, abstracted over the
type `J` of decoded JSON values: status code, raw text body, the JSON decode
of the body (`none` when the body is not valid JSON), and whether the
`Content-Type` header declares JSON (which `aiohttp`'s `resp.json()`
checks and `requests`' `response.json()` ignores). -/
structure HttpResponse (J : Type) where
  statusCode : Nat
  text : String
  bodyJson : Option J
  ctJson : Bool
deriving DecidableEq

/-- What a `request` call hands back to the caller: a decoded JSON value,
a raw text body, or the `requests` response object itself. -/
inductive RequestReturn (J : Type) where
  | json (j : J)
  | text (t : String)
  | responseObj (r : HttpResponse J)
deriving DecidableEq

/-- Exceptions the transport and client layers can raise. -/
inductive PyExc where
  | bareRaise
  | jsonDecodeError
  | valueError
deriving DecidableEq

/-- Python truthiness of the stored token (`if not self.__token: raise`). -/
def tokenTruthy : Option String → Bool
  | none => false
  | some s => !s.isEmpty

/-- Embedding of `HTTPClient.request` (lines 46-66): after the token check, tries
`response.json()` and on any failure (`except:`) returns the `response`
object itself. -/
def HTTPClient.request {J : Type} (token : Option String) (resp : HttpResponse J) :
    Except PyExc (RequestReturn J) :=
  if tokenTruthy token then
    match resp.bodyJson with
    | some j => .ok (.json j)
    | none => .ok (.responseObj resp)
  else .error .bareRaise

/-- Embedding of `AsyncHTTPClient.request` (lines 101-122): `await resp.json()` raises
`ContentTypeError` when the header is not JSON (caught: the raw text is
returned) and `json.JSONDecodeError` when the header is JSON but the body is
not (uncaught: it propagates). -/
def AsyncHTTPClient.request {J : Type} (token : Option String) (resp : HttpResponse J) :
    Except PyExc (RequestReturn J) :=
  if tokenTruthy token then
    if resp.ctJson then
      match resp.bodyJson with
      | some j => .ok (.json j)
      | none => .error .jsonDecodeError
    else .ok (.text resp.text)
  else .error .bareRaise

/-! ### Client date validation (`nasa/client.py`) -/

/-- The `date` argument of `get_astronomy_picture`: `None` (default), a
string, a `datetime` (held as its calendar triple), or an object of any
other type (split by Python truthiness). -/
inductive DateArg where
  | pyNone
  | str (s : Chars)
  | dt (y m d : Nat)
  | otherTruthy
  | otherFalsy
deriving DecidableEq

def DateArg.truthy : DateArg → Bool
  | .pyNone => false
  | .str s => !s.isEmpty
  | .dt _ _ _ => true
  | .otherTruthy => true
  | .otherFalsy => false

/-- Embedding of `isinstance(date, (datetime, str))`. -/
def DateArg.isDatetimeOrStr : DateArg → Bool
  | .str _ => true
  | .dt _ _ _ => true
  | _ => false

/-- Observable outcome of `get_astronomy_picture` up to the metadata
request: either `ValueError` raised locally, or a network request issued
with the given (post-conversion) `date` parameter. -/
inductive ApodOutcome where
  | valueError
  | request (dateParam : DateArg)
deriving DecidableEq

/-- Embedding of `NasaSyncClient.get_astronomy_picture` (lines 213-255) up to the
request: type check on truthy arguments, `datetime → str` conversion, then
`_validate_date` — but only when the (converted) value is truthy. -/
def get_astronomy_picture (date : DateArg) : ApodOutcome :=
  if date.truthy && !date.isDatetimeOrStr then .valueError
  else
    let date2 := match date with
      | .dt y m d => DateArg.str (formatDateChars y m d)
      | x => x
    if date2.truthy then
      match date2 with
      | .str s => if (parseDateChars s).isSome then .request (.str s) else .valueError
      | _ => .valueError
    else .request date2

/-! ### `get_rand_astronomy_pictures` (`nasa/client.py` lines 335-373 and
666-704) -/

/-- A raw APOD payload item, with the fields the mapping layer reads. -/
structure RawAstronomyPicture where
  copyright : Option String
  date : Chars
  explanation : String
  hdurl : Option String
  media_type : Option String
  service_version : String
  title : String
  url : Chars
deriving DecidableEq

/-- The domain entity, parameterized over the asset variant bound to it. -/
structure AstronomyPicture (A : Type) where
  copyright : Option String
  date : Chars
  explanation : String
  hdurl : Option String
  media_type : Option String
  service_version : String
  title : String
  url : Chars
  image : A
deriving DecidableEq

/-- The field-by-field construction of an `AstronomyPicture` from a raw
payload item, as written in each list comprehension of the clients. -/
def buildPicture {A : Type} (mkAsset : Chars → A) (r : RawAstronomyPicture) :
    AstronomyPicture A :=
  { copyright := r.copyright, date := r.date, explanation := r.explanation,
    hdurl := r.hdurl, media_type := r.media_type,
    service_version := r.service_version, title := r.title, url := r.url,
    image := mkAsset r.url }

/-- Embedding of `SyncAsset(response.get("url"), self.__http, "full")`. -/
def mkSyncAssetFull (u : Chars) : SyncAsset := ⟨u, none, "full".toList⟩

/-- Embedding of `AsyncAsset(img_metadata.get("url"), self.__http, "full")`. -/
def mkAsyncAssetFull (u : Chars) : AsyncAsset := ⟨u, none, "full".toList⟩

/-- The `count` argument: an `int` or an object of another type. -/
inductive CountArg where
  | int (n : Int)
  | nonInt
deriving DecidableEq

/-- Embedding of `NasaSyncClient.get_rand_astronomy_pictures`: type check, range check
`1 <= count <= 100` (both raising `ValueError` before any request), then one
request with `count=count`; `responder` models the upstream's answer to that
request, and the `.ok` result records the count actually requested. -/
def get_rand_astronomy_pictures (count : CountArg)
    (responder : Int → List RawAstronomyPicture) :
    Except PyExc (Int × List (AstronomyPicture SyncAsset)) :=
  match count with
  | .nonInt => .error .valueError
  | .int n =>
    if 1 ≤ n ∧ n ≤ 100 then
      .ok (n, (responder n).map (buildPicture mkSyncAssetFull))
    else .error .valueError

/-- Embedding of `NasaAsyncClient.get_rand_astronomy_pictures`: identical validation and
mapping, with `AsyncAsset`s bound to the entities. -/
def get_rand_astronomy_pictures_async (count : CountArg)
    (responder : Int → List RawAstronomyPicture) :
    Except PyExc (Int × List (AstronomyPicture AsyncAsset)) :=
  match count with
  | .nonInt => .error .valueError
  | .int n =>
    if 1 ≤ n ∧ n ≤ 100 then
      .ok (n, (responder n).map (buildPicture mkAsyncAssetFull))
    else .error .valueError

/-! ### Two consecutive reads on one asset (for the memoization claim) -/

/-- Embedding of `asset.read(arg1); asset.read(arg2)` on a `SyncAsset`: the pair of
returned byte values (or the first raised error) together with every URL
fetched across both calls. -/
def syncReadTwice (net : Net) (a : SyncAsset) (arg1 arg2 : AssetAs) :
    Except Unit (Bytes × Bytes) × List Chars :=
  let r1 := a.read net arg1
  match r1.result with
  | .error e => (.error e, r1.fetched)
  | .ok (b1, a1) =>
    let r2 := a1.read net arg2
    match r2.result with
    | .error e => (.error e, r1.fetched ++ r2.fetched)
    | .ok (b2, _) => (.ok (b1, b2), r1.fetched ++ r2.fetched)

/-- Embedding of `await asset.read(); await asset.read()` on an `AsyncAsset`. -/
def asyncReadTwice (net : Net) (a : AsyncAsset) : (Bytes × Bytes) × List Chars :=
  let r1 := a.read net
  let r2 := r1.2.1.read net
  ((r1.1, r2.1), r1.2.2 ++ r2.2.2)

/-! ### Lemmas about the string and date machinery -/

/-! ### Splitting lemmas -/

theorem splitOnP_no_sep (p : Char → Bool) (tok : Chars)
    (h : ∀ c ∈ tok, p c = false) : splitOnP p tok = (tok, []) := by
  induction tok with
  | nil => rfl
  | cons c cs ih =>
    have hc : p c = false := h c (List.mem_cons_self ..)
    have : splitOnP p cs = (cs, []) := ih fun x hx => h x (List.mem_cons_of_mem _ hx)
    simp [splitOnP, this, hc]

theorem splitOnP_append_sep (p : Char → Bool) (tok rest : Chars) (c : Char)
    (htok : ∀ x ∈ tok, p x = false) (hc : p c = true) :
    splitOnP p (tok ++ c :: rest) = (tok, (splitOnP p rest).1 :: (splitOnP p rest).2) := by
  induction tok with
  | nil => simp [splitOnP, hc]
  | cons x xs ih =>
    have hx : p x = false := htok x (List.mem_cons_self ..)
    have := ih fun z hz => htok z (List.mem_cons_of_mem _ hz)
    simp [splitOnP, this, hx]

theorem splitOnPList_append_sep (p : Char → Bool) (tok rest : Chars) (c : Char)
    (htok : ∀ x ∈ tok, p x = false) (hc : p c = true) :
    splitOnPList p (tok ++ c :: rest) = tok :: splitOnPList p rest := by
  simp [splitOnPList, splitOnP_append_sep p tok rest c htok hc]

theorem splitOnPList_no_sep (p : Char → Bool) (tok : Chars)
    (h : ∀ c ∈ tok, p c = false) : splitOnPList p tok = [tok] := by
  simp [splitOnPList, splitOnP_no_sep p tok h]

theorem pySplitWs_head (tok rest : Chars) (hne : tok ≠ [])
    (htok : ∀ x ∈ tok, x.isWhitespace = false) :
    pySplitWs (tok ++ ' ' :: rest) = tok :: pySplitWs rest := by
  unfold pySplitWs
  rw [splitOnPList_append_sep Char.isWhitespace tok rest ' ' htok (by decide)]
  simp [hne]

theorem digitChar_isDigit (n : Nat) (h : n < 10) : (digitChar n).isDigit = true := by
  interval_cases n <;> decide

theorem digitVal_digitChar (n : Nat) (h : n < 10) : digitVal (digitChar n) = n := by
  interval_cases n <;> decide

theorem spanDigits_all (ds : Chars) (h : ∀ c ∈ ds, c.isDigit = true) :
    spanDigits ds = (ds, []) := by
  induction ds with
  | nil => rfl
  | cons c cs ih =>
    have hc := h c (List.mem_cons_self ..)
    have := ih fun x hx => h x (List.mem_cons_of_mem _ hx)
    simp [spanDigits, hc, this]

theorem spanDigits_append (ds rest : Chars) (c : Char)
    (h : ∀ x ∈ ds, x.isDigit = true) (hc : c.isDigit = false) :
    spanDigits (ds ++ c :: rest) = (ds, c :: rest) := by
  induction ds with
  | nil => simp [spanDigits, hc]
  | cons x xs ih =>
    have hx := h x (List.mem_cons_self ..)
    have := ih fun z hz => h z (List.mem_cons_of_mem _ hz)
    simp [spanDigits, hx, this]

theorem parse_format_roundtrip (y m d : Nat) (h : ValidYmd y m d) :
    parseDateChars (formatDateChars y m d) = some (y, m, d) := by
  obtain ⟨h1, h2, h3, h4, h5, h6⟩ := h
  have hy3 : y / 1000 % 10 < 10 := Nat.mod_lt _ (by omega)
  have hy2 : y / 100 % 10 < 10 := Nat.mod_lt _ (by omega)
  have hy1 : y / 10 % 10 < 10 := Nat.mod_lt _ (by omega)
  have hy0 : y % 10 < 10 := Nat.mod_lt _ (by omega)
  have hm1 : m / 10 % 10 < 10 := Nat.mod_lt _ (by omega)
  have hm0 : m % 10 < 10 := Nat.mod_lt _ (by omega)
  have hd1 : d / 10 % 10 < 10 := Nat.mod_lt _ (by omega)
  have hd0 : d % 10 < 10 := Nat.mod_lt _ (by omega)
  have hdash : ('-' : Char).isDigit = false := by decide
  have hspanm :
      spanDigits (pad2 m ++ '-' :: pad2 d) = (pad2 m, '-' :: pad2 d) := by
    apply spanDigits_append
    · intro x hx
      simp only [pad2, List.mem_cons, List.not_mem_nil, or_false] at hx
      rcases hx with h | h <;> rw [h]
      · exact digitChar_isDigit _ hm1
      · exact digitChar_isDigit _ hm0
    · exact hdash
  have hspand : spanDigits (pad2 d) = (pad2 d, []) := by
    apply spanDigits_all
    intro x hx
    simp only [pad2, List.mem_cons, List.not_mem_nil, or_false] at hx
    rcases hx with h | h <;> rw [h]
    · exact digitChar_isDigit _ hd1
    · exact digitChar_isDigit _ hd0
  have hdecy : decodeDigits (pad4 y) = y := by
    simp only [decodeDigits, pad4, List.foldl,
      digitVal_digitChar _ hy3, digitVal_digitChar _ hy2,
      digitVal_digitChar _ hy1, digitVal_digitChar _ hy0]
    omega
  have hdecm : decodeDigits (pad2 m) = m := by
    simp only [decodeDigits, pad2, List.foldl,
      digitVal_digitChar _ hm1, digitVal_digitChar _ hm0]
    omega
  have hdm : daysInMonth y m ≤ 31 := by
    unfold daysInMonth
    split
    · split <;> omega
    · split <;> omega
  have hdecd : decodeDigits (pad2 d) = d := by
    simp only [decodeDigits, pad2, List.foldl,
      digitVal_digitChar _ hd1, digitVal_digitChar _ hd0]
    omega
  have hvalid : ValidYmd y m d := ⟨h1, h2, h3, h4, h5, h6⟩
  simp only [formatDateChars, pad4, List.cons_append, List.nil_append,
    parseDateChars, digitChar_isDigit _ hy3, digitChar_isDigit _ hy2,
    digitChar_isDigit _ hy1, digitChar_isDigit _ hy0, Bool.and_self,
    decide_eq_true_eq, Bool.and_true, Bool.true_and]
  rw [if_pos (by decide)]
  rw [show pad4 y = [digitChar (y / 1000 % 10), digitChar (y / 100 % 10),
        digitChar (y / 10 % 10), digitChar (y % 10)] from rfl] at hdecy
  rw [hdecy] at *
  simp only [hspanm]
  rw [if_pos (by simp [pad2])]
  simp only [hspand]
  rw [if_pos (by simp [pad2])]
  rw [hdecm, hdecd, if_pos hvalid]

/-! ## Claims -/

/-- C8: for every valid zero-padded `YYYY-MM-DD` date string, the date
validator (`_BaseClient._validate_date`, i.e. `strptime` with `%Y-%m-%d`)
succeeds, and formatting the parsed date back (`_BaseClient._date_to_str`,
i.e. `strftime` with `%Y-%m-%d`) reproduces the string exactly. -/
theorem validate_date_roundtrip (cs : Chars)
    (h : ∃ y m d, ValidYmd y m d ∧ cs = formatDateChars y m d) :
    ∃ p : Nat × Nat × Nat, parseDateChars cs = some p ∧
      formatDateChars p.1 p.2.1 p.2.2 = cs := by
  obtain ⟨y, m, d, hv, rfl⟩ := h
  exact ⟨(y, m, d), parse_format_roundtrip y m d hv, rfl⟩

theorem validate_date_roundtrip_witness :
    (∃ y m d, ValidYmd y m d ∧ "2022-01-02".toList = formatDateChars y m d) ∧
    (∃ p : Nat × Nat × Nat, parseDateChars "2022-01-02".toList = some p ∧
      formatDateChars p.1 p.2.1 p.2.2 = "2022-01-02".toList) :=
  ⟨⟨2022, 1, 2, by decide, by decide⟩,
   validate_date_roundtrip _ ⟨2022, 1, 2, by decide, by decide⟩⟩

/-- C9: the equality half of the claim holds on the code — `__eq__` of both
variants compares only the URLs, independent of cache state — but the
hashing half fails: both classes define `__eq__` without `__hash__`, so
Python sets `__hash__ = None` in each class body and `hash(asset)` raises
`TypeError` (the URL-based `_BaseAsset.__hash__` is shadowed and
unreachable).  Evaluated at the failing input: concrete assets with equal
URLs and different cache states, and with different URLs. -/
theorem asset_eq_by_url_hash_unhashable :
    SyncAsset.eqPy ⟨"a".toList, none, "full".toList⟩
        ⟨"a".toList, some [1], "partial".toList⟩ = true ∧
    SyncAsset.eqPy ⟨"a".toList, none, "full".toList⟩
        ⟨"b".toList, some [1], "partial".toList⟩ = false ∧
    SyncAsset.hashPy ⟨"a".toList, none, "full".toList⟩ = .error () ∧
    AsyncAsset.eqPy ⟨"a".toList, none, "full".toList⟩
        ⟨"a".toList, some [1], "partial".toList⟩ = true ∧
    AsyncAsset.eqPy ⟨"a".toList, none, "full".toList⟩
        ⟨"b".toList, some [1], "partial".toList⟩ = false ∧
    AsyncAsset.hashPy ⟨"a".toList, none, "full".toList⟩ = .error () :=
  ⟨by decide, by decide, rfl, by decide, by decide, rfl⟩

/-- C10: `bytes_asset` diverges between the variants.  On an empty cache the
synchronous property calls `read()` with the default `asset_as=None` — which
raises `ValueError` on a `"partial"` URL, and performs a network fetch on a
resolved non-empty URL — while the asynchronous property returns `None`
without any fetch. -/
theorem bytes_asset_divergence (net : Net) (a : SyncAsset) (b : AsyncAsset)
    (ha : a.bytesCache = none) (hb : b.bytesCache = none) :
    (a.urlState = "partial".toList →
      a.bytes_asset net = { result := .error (), fetched := [] }) ∧
    (a.urlState ≠ "partial".toList → a.url ≠ [] →
      a.bytes_asset net =
        { result := .ok (net a.url, ⟨a.url, some (net a.url), a.urlState⟩),
          fetched := [a.url] }) ∧
    b.bytes_asset = none := by
  refine ⟨fun hpart => ?_, fun hfull hu => ?_, hb⟩
  · simp [SyncAsset.bytes_asset, ha, SyncAsset.read, hpart]
  · have hl : "partial".toList = ['p', 'a', 'r', 't', 'i', 'a', 'l'] := rfl
    rw [hl] at hfull
    simp [SyncAsset.bytes_asset, ha, SyncAsset.read, hfull, get_image_as_bytes, hu]

theorem bytes_asset_divergence_witness :
    ((⟨"u".toList, none, "partial".toList⟩ : SyncAsset).bytesCache = none ∧
     (⟨"u".toList, none, "full".toList⟩ : AsyncAsset).bytesCache = none) ∧
    (SyncAsset.bytes_asset (fun _ => [7]) ⟨"u".toList, none, "partial".toList⟩ =
       { result := .error (), fetched := [] } ∧
     AsyncAsset.bytes_asset ⟨"u".toList, none, "full".toList⟩ = none) :=
  ⟨⟨rfl, rfl⟩,
   ⟨(bytes_asset_divergence (fun _ => [7]) ⟨"u".toList, none, "partial".toList⟩
      ⟨"u".toList, none, "full".toList⟩ rfl rfl).1 rfl,
    (bytes_asset_divergence (fun _ => [7]) ⟨"u".toList, none, "partial".toList⟩
      ⟨"u".toList, none, "full".toList⟩ rfl rfl).2.2⟩⟩

/-- C7: for integer `count` in `[1, 100]` both clients issue one request
asking for exactly `count` items and return one entity per response item (so
a list of length `count` when the upstream honours the request); for an
integer outside `[1, 100]` or a non-integer argument both raise
`ValueError` with no request issued. -/
theorem get_rand_count_validation (n : Int)
    (responder : Int → List RawAstronomyPicture) :
    (1 ≤ n ∧ n ≤ 100 →
      get_rand_astronomy_pictures (.int n) responder =
        .ok (n, (responder n).map (buildPicture mkSyncAssetFull)) ∧
      get_rand_astronomy_pictures_async (.int n) responder =
        .ok (n, (responder n).map (buildPicture mkAsyncAssetFull)) ∧
      ((responder n).length = n.toNat →
        ((responder n).map (buildPicture mkSyncAssetFull)).length = n.toNat ∧
        ((responder n).map (buildPicture mkAsyncAssetFull)).length = n.toNat)) ∧
    (¬(1 ≤ n ∧ n ≤ 100) →
      get_rand_astronomy_pictures (.int n) responder = .error .valueError ∧
      get_rand_astronomy_pictures_async (.int n) responder = .error .valueError) ∧
    get_rand_astronomy_pictures .nonInt responder = .error .valueError ∧
    get_rand_astronomy_pictures_async .nonInt responder = .error .valueError := by
  refine ⟨fun hin => ?_, fun hout => ?_, rfl, rfl⟩
  · refine ⟨?_, ?_, fun hlen => ?_⟩
    · simp [get_rand_astronomy_pictures, hin]
    · simp [get_rand_astronomy_pictures_async, hin]
    · simp [List.length_map, hlen]
  · constructor
    · simp [get_rand_astronomy_pictures, hout]
    · simp [get_rand_astronomy_pictures_async, hout]

theorem get_rand_count_validation_witness :
    ((1 : Int) ≤ 2 ∧ (2 : Int) ≤ 100) ∧
    get_rand_astronomy_pictures (.int 2) (fun _ => []) =
      .ok (2, []) ∧
    get_rand_astronomy_pictures_async (.int 2) (fun _ => []) =
      .ok (2, []) ∧
    ¬((1 : Int) ≤ 101 ∧ (101 : Int) ≤ 100) ∧
    get_rand_astronomy_pictures (.int 101) (fun _ => []) = .error .valueError :=
  ⟨by decide,
   ((get_rand_count_validation 2 (fun _ => [])).1 (by decide)).1,
   ((get_rand_count_validation 2 (fun _ => [])).1 (by decide)).2.1,
   by decide,
   ((get_rand_count_validation 101 (fun _ => [])).2.1 (by decide)).1⟩

/-- C2: for every identifier, every date of the shape
`{y}-{m}-{d} {time}` (components free of whitespace and dashes), every EPIC
image type and optionally supplied extension, the builder produces
`{EPIC image base}/archive/{natural|enhanced}/{y}/{m}/{d}/{ext}/{pfx}_{identifier}.{ext}`
with the date dashes rewritten to slashes, `epic_1b` as prefix exactly when
the image type contains `"natural"`, and the placeholder in both extension
slots when no extension was supplied. -/
theorem epic_url_builder_correct
    (identifier y m d rest : Chars) (it : EpicImageType) (ia : Option FileTypes)
    (hy : ∀ c ∈ y, c.isWhitespace = false ∧ c ≠ '-')
    (hm : ∀ c ∈ m, c.isWhitespace = false ∧ c ≠ '-')
    (hd : ∀ c ∈ d, c.isWhitespace = false ∧ c ≠ '-') :
    epic_url_image_builder identifier ((y ++ '-' :: (m ++ '-' :: d)) ++ ' ' :: rest) it ia =
      some (EPIC_IMG ++ "/archive/".toList ++
            (if containsSub "natural".toList it.value
             then "natural".toList else "enhanced".toList) ++
            "/".toList ++ (y ++ ['/'] ++ (m ++ ['/'] ++ d)) ++ "/".toList ++
            epic_ext_seg ia ++ "/".toList ++
            (if containsSub "natural".toList it.value
             then "epic_1b".toList else "epic_RGB".toList) ++
            "_".toList ++ identifier ++ ".".toList ++ epic_ext_seg ia,
            "partial".toList) := by
  have hne : y ++ '-' :: (m ++ '-' :: d) ≠ [] := by simp
  have hws : ∀ x ∈ y ++ '-' :: (m ++ '-' :: d), x.isWhitespace = false := by
    intro x hx
    rcases List.mem_append.mp hx with h | h
    · exact (hy x h).1
    rcases List.mem_cons.mp h with h | h
    · subst h; decide
    rcases List.mem_append.mp h with h | h
    · exact (hm x h).1
    rcases List.mem_cons.mp h with h | h
    · subst h; decide
    · exact (hd x h).1
  have hdash : ∀ (z : Chars), (∀ c ∈ z, c ≠ '-') →
      ∀ x ∈ z, (fun c => c == '-') x = false := by
    intro z hz x hx
    simpa using hz x hx
  have hs1 : splitOnPList (fun c => c == '-') (y ++ '-' :: (m ++ '-' :: d)) =
      y :: splitOnPList (fun c => c == '-') (m ++ '-' :: d) :=
    splitOnPList_append_sep _ y _ '-' (hdash y fun c hc => (hy c hc).2) (by decide)
  have hs2 : splitOnPList (fun c => c == '-') (m ++ '-' :: d) =
      m :: splitOnPList (fun c => c == '-') d :=
    splitOnPList_append_sep _ m _ '-' (hdash m fun c hc => (hm c hc).2) (by decide)
  have hs3 : splitOnPList (fun c => c == '-') d = [d] :=
    splitOnPList_no_sep _ d (hdash d fun c hc => (hd c hc).2)
  unfold epic_url_image_builder
  rw [pySplitWs_head (y ++ '-' :: (m ++ '-' :: d)) rest hne hws]
  simp only [List.head?_cons, Option.map_some', hs1, hs2, hs3, joinWith]
  cases it
  case natural =>
    simp [show containsSub "natural".toList (EpicImageType.value .natural) = true from rfl]
  case natural_date =>
    simp [show containsSub "natural".toList (EpicImageType.value .natural_date) = true from rfl]
  case enhanced =>
    simp [show containsSub "natural".toList (EpicImageType.value .enhanced) = false from rfl,
      show ("enhanced".toList = "natural".toList) = False by simp]
  case enhanced_date =>
    simp [show containsSub "natural".toList (EpicImageType.value .enhanced_date) = false from rfl,
      show ("enhanced".toList = "natural".toList) = False by simp]

theorem epic_url_builder_correct_witness :
    (∀ c ∈ "2022".toList, c.isWhitespace = false ∧ c ≠ '-') ∧
    (∀ c ∈ "01".toList, c.isWhitespace = false ∧ c ≠ '-') ∧
    (∀ c ∈ "02".toList, c.isWhitespace = false ∧ c ≠ '-') ∧
    epic_url_image_builder "12345".toList
        (("2022".toList ++ '-' :: ("01".toList ++ '-' :: "02".toList)) ++
          ' ' :: "00:00:00".toList)
        .natural (some .png) =
      some ("https://epic.gsfc.nasa.gov/archive/natural/2022/01/02/png/epic_1b_12345.png".toList,
            "partial".toList) :=
  ⟨by decide, by decide, by decide,
   (epic_url_builder_correct "12345".toList "2022".toList "01".toList "02".toList
      "00:00:00".toList .natural (some .png)
      (by decide) (by decide) (by decide)).trans (by decide)⟩

/-- C3 counterexample: the extension `png` is supplied at construction time,
the URL comes out fully resolved — yet the asset is still tagged
`"partial"` (the builder returns the constant `"partial"` tag for every
input), contradicting "it is not tagged partial when an extension is
supplied". -/
theorem epic_asset_tag_counterexample :
    mkEpicSyncAsset "12345".toList "2022-01-02 00:00:00".toList .natural (some .png) =
      some ⟨"https://epic.gsfc.nasa.gov/archive/natural/2022/01/02/png/epic_1b_12345.png".toList,
            none, "partial".toList⟩ ∧
    (mkEpicSyncAsset "12345".toList "2022-01-02 00:00:00".toList .natural
        (some .png)).map SyncAsset.urlState = some "partial".toList :=
  ⟨by decide, by decide⟩

/-- C3 amended: every asset built from the EPIC URL builder is tagged
`"partial"`, whether or not an extension was supplied; supplying an
extension resolves the URL text but does not bypass the deferred
substitution step (the tag, and hence `read`'s extension demand, is
unconditional). -/
theorem epic_asset_tag_is_constant (identifier date : Chars) (it : EpicImageType)
    (ia : Option FileTypes) (a : SyncAsset) (b : AsyncAsset)
    (hsa : mkEpicSyncAsset identifier date it ia = some a)
    (hsb : mkEpicAsyncAsset identifier date it ia = some b) :
    a.urlState = "partial".toList ∧ b.urlState = "partial".toList := by
  unfold mkEpicSyncAsset at hsa
  unfold mkEpicAsyncAsset at hsb
  unfold epic_url_image_builder at hsa hsb
  rcases h : (pySplitWs date).head? with _ | tok
  · rw [h] at hsa
    simp at hsa
  · rw [h] at hsa hsb
    simp only [Option.map_some', Option.some.injEq] at hsa hsb
    rw [← hsa, ← hsb]
    exact ⟨rfl, rfl⟩

theorem epic_asset_tag_is_constant_witness :
    mkEpicSyncAsset "1".toList "2022-01-02 00:00:00".toList .enhanced none =
      some ⟨("https://epic.gsfc.nasa.gov/archive/enhanced/2022/01/02/".toList ++
              [lbrace, rbrace] ++ "/epic_RGB_1.".toList ++ [lbrace, rbrace]),
            none, "partial".toList⟩ ∧
    mkEpicAsyncAsset "1".toList "2022-01-02 00:00:00".toList .enhanced none =
      some ⟨("https://epic.gsfc.nasa.gov/archive/enhanced/2022/01/02/".toList ++
              [lbrace, rbrace] ++ "/epic_RGB_1.".toList ++ [lbrace, rbrace]),
            none, "partial".toList⟩ ∧
    SyncAsset.urlState ⟨("https://epic.gsfc.nasa.gov/archive/enhanced/2022/01/02/".toList ++
              [lbrace, rbrace] ++ "/epic_RGB_1.".toList ++ [lbrace, rbrace]),
            none, "partial".toList⟩ = "partial".toList :=
  ⟨by decide, by decide,
   (epic_asset_tag_is_constant "1".toList "2022-01-02 00:00:00".toList .enhanced none
      _ ⟨("https://epic.gsfc.nasa.gov/archive/enhanced/2022/01/02/".toList ++
              [lbrace, rbrace] ++ "/epic_RGB_1.".toList ++ [lbrace, rbrace]),
            none, "partial".toList⟩ (by decide) (by decide)).1⟩

/-- C1 counterexample: two consecutive `read()` calls on a fully resolved
`SyncAsset` perform two network fetches, not at most one — the cache is
written by `read` but never consulted by it. -/
theorem read_memoization_counterexample :
    syncReadTwice (fun _ => [7]) ⟨"u".toList, none, "full".toList⟩ .pyNone .pyNone =
      (.ok ([7], [7]), ["u".toList, "u".toList]) ∧
    ¬((syncReadTwice (fun _ => [7]) ⟨"u".toList, none, "full".toList⟩
        .pyNone .pyNone).2.length ≤ 1) :=
  ⟨rfl, by decide⟩

/-- C1 amended: on a fully resolved non-empty URL, two `read()` calls return
identical bytes (the deterministic body at that URL) but perform one fetch
per call — two in total — in both the synchronous and asynchronous variant;
memoization is provided only by `bytes_asset`/`save`, not by `read`. -/
theorem read_refetches_every_time (net : Net) (a : SyncAsset) (b : AsyncAsset)
    (ha : a.urlState ≠ "partial".toList) (hu : a.url ≠ []) (hbu : b.url ≠ [])
    (arg1 arg2 : AssetAs) :
    syncReadTwice net a arg1 arg2 = (.ok (net a.url, net a.url), [a.url, a.url]) ∧
    asyncReadTwice net b = ((net b.url, net b.url), [b.url, b.url]) := by
  constructor
  · have hl : "partial".toList = ['p', 'a', 'r', 't', 'i', 'a', 'l'] := rfl
    rw [hl] at ha
    simp [syncReadTwice, SyncAsset.read, get_image_as_bytes, ha, hu]
  · simp [asyncReadTwice, AsyncAsset.read, get_image_as_bytes, hbu]

theorem read_refetches_every_time_witness :
    (SyncAsset.urlState ⟨"u".toList, none, "full".toList⟩ ≠ "partial".toList ∧
     SyncAsset.url ⟨"u".toList, none, "full".toList⟩ ≠ [] ∧
     AsyncAsset.url ⟨"v".toList, none, "full".toList⟩ ≠ []) ∧
    (syncReadTwice (fun _ => [9]) ⟨"u".toList, none, "full".toList⟩ .pyNone .pyNone =
       (.ok ([9], [9]), ["u".toList, "u".toList]) ∧
     asyncReadTwice (fun _ => [9]) ⟨"v".toList, none, "full".toList⟩ =
       (([9], [9]), ["v".toList, "v".toList])) :=
  ⟨⟨by decide, by decide, by decide⟩,
   read_refetches_every_time (fun _ => [9]) ⟨"u".toList, none, "full".toList⟩
     ⟨"v".toList, none, "full".toList⟩ (by decide) (by decide) (by decide)
     .pyNone .pyNone⟩

/-- C4 counterexample: on a `"partial"`-tagged asset with no extension
supplied, the synchronous `read` raises `ValueError` before any fetch — but
the asynchronous `read` (which has no extension parameter and no URL-state
check at all) raises nothing and fetches the placeholder-bearing URL, so
the two variants' contracts differ. -/
theorem partial_read_async_counterexample :
    (SyncAsset.read (fun _ => [7]) ⟨'h' :: [lbrace, rbrace], none, "partial".toList⟩
        .pyNone).result = .error () ∧
    (SyncAsset.read (fun _ => [7]) ⟨'h' :: [lbrace, rbrace], none, "partial".toList⟩
        .pyNone).fetched = [] ∧
    AsyncAsset.read (fun _ => [7]) ⟨'h' :: [lbrace, rbrace], none, "partial".toList⟩ =
      ([7], ⟨'h' :: [lbrace, rbrace], some [7], "partial".toList⟩,
       ['h' :: [lbrace, rbrace]]) :=
  ⟨rfl, rfl, rfl⟩

/-- C4 amended: the synchronous `read` on a `"partial"` asset without a
`FileTypes` extension raises `ValueError` before any fetch, but the
asynchronous `read` never raises: it accepts no extension and fetches the
stored URL as-is, so the contracts are not identical. -/
theorem partial_read_contract (net : Net) (a : SyncAsset) (arg : AssetAs)
    (hpart : a.urlState = "partial".toList) (harg : ∀ ft, arg ≠ .fileType ft)
    (b : AsyncAsset) (hbu : b.url ≠ []) :
    a.read net arg = { result := .error (), fetched := [] } ∧
    b.read net = (net b.url, ⟨b.url, some (net b.url), b.urlState⟩, [b.url]) := by
  constructor
  · cases arg with
    | fileType ft => exact absurd rfl (harg ft)
    | pyNone => simp [SyncAsset.read, hpart]
    | other => simp [SyncAsset.read, hpart]
  · simp [AsyncAsset.read, get_image_as_bytes, hbu]

theorem partial_read_contract_witness :
    (SyncAsset.urlState ⟨"u".toList, none, "partial".toList⟩ = "partial".toList ∧
     (∀ ft, AssetAs.pyNone ≠ AssetAs.fileType ft) ∧
     AsyncAsset.url ⟨"v".toList, none, "partial".toList⟩ ≠ []) ∧
    (SyncAsset.read (fun _ => [3]) ⟨"u".toList, none, "partial".toList⟩ .pyNone =
       { result := .error (), fetched := [] } ∧
     AsyncAsset.read (fun _ => [3]) ⟨"v".toList, none, "partial".toList⟩ =
       ([3], ⟨"v".toList, some [3], "partial".toList⟩, ["v".toList])) :=
  by
  refine ⟨⟨rfl, fun ft h => ?_, by decide⟩, ?_⟩
  · cases h
  · exact partial_read_contract (fun _ => [3]) ⟨"u".toList, none, "partial".toList⟩
      .pyNone rfl (fun ft h => by cases h) ⟨"v".toList, none, "partial".toList⟩
      (by decide)

/-- C5 counterexample: a response whose body fails JSON decoding makes the
synchronous `HTTPClient.request` return the response *object*, not its raw
text body; and when the content type declares JSON, the asynchronous
variant raises `json.JSONDecodeError` instead of returning the text. -/
theorem request_decode_failure_counterexample :
    HTTPClient.request (J := Nat) (some "key") ⟨502, "Bad Gateway", none, false⟩ =
      .ok (.responseObj ⟨502, "Bad Gateway", none, false⟩) ∧
    RequestReturn.responseObj (J := Nat) ⟨502, "Bad Gateway", none, false⟩ ≠
      .text "Bad Gateway" ∧
    AsyncHTTPClient.request (J := Nat) (some "key") ⟨502, "Bad Gateway", none, true⟩ =
      .error .jsonDecodeError :=
  ⟨rfl, by decide, rfl⟩

/-- C5 amended: on JSON decode failure (with a configured token) the
synchronous request returns the `requests` response object itself — the
caller receives neither a decoded JSON value nor the text string — while
the asynchronous request returns the raw text only when the failure is a
content-type mismatch and propagates `json.JSONDecodeError` when the
declared-JSON body fails to decode. -/
theorem request_decode_failure (J : Type) (token : Option String)
    (r : HttpResponse J) (htok : tokenTruthy token = true)
    (hbody : r.bodyJson = none) :
    HTTPClient.request token r = .ok (.responseObj r) ∧
    (r.ctJson = false → AsyncHTTPClient.request token r = .ok (.text r.text)) ∧
    (r.ctJson = true → AsyncHTTPClient.request token r = .error .jsonDecodeError) := by
  refine ⟨?_, fun hct => ?_, fun hct => ?_⟩
  · simp [HTTPClient.request, htok, hbody]
  · simp [AsyncHTTPClient.request, htok, hbody, hct]
  · simp [AsyncHTTPClient.request, htok, hbody, hct]

theorem request_decode_failure_witness :
    (tokenTruthy (some "key") = true ∧
     HttpResponse.bodyJson (J := Nat) ⟨404, "oops", none, false⟩ = none) ∧
    (HTTPClient.request (J := Nat) (some "key") ⟨404, "oops", none, false⟩ =
       .ok (.responseObj ⟨404, "oops", none, false⟩) ∧
     AsyncHTTPClient.request (J := Nat) (some "key") ⟨404, "oops", none, false⟩ =
       .ok (.text "oops")) :=
  ⟨⟨rfl, rfl⟩,
   ⟨(request_decode_failure Nat (some "key") ⟨404, "oops", none, false⟩ rfl rfl).1,
    (request_decode_failure Nat (some "key") ⟨404, "oops", none, false⟩ rfl rfl).2.1 rfl⟩⟩

/-- C6 counterexample: the empty string is a malformed date, yet
`get_astronomy_picture("")` raises nothing — the empty string is falsy, so
the `if date:` guard skips `_validate_date` entirely and the metadata
request is issued with the empty date parameter. -/
theorem apod_empty_date_counterexample :
    get_astronomy_picture (.str "".toList) = .request (.str []) ∧
    get_astronomy_picture (.str "".toList) ≠ .valueError :=
  ⟨rfl, by decide⟩

/-- C6 amended: every malformed *non-empty* date string makes
`get_astronomy_picture` raise `ValueError` before any network request, but
the empty string (being falsy) bypasses validation and a request is issued
with it. -/
theorem apod_malformed_date (s : Chars) (hs : s ≠ [])
    (hbad : parseDateChars s = none) :
    get_astronomy_picture (.str s) = .valueError ∧
    get_astronomy_picture (.str []) = .request (.str []) := by
  refine ⟨?_, rfl⟩
  obtain ⟨c, cs, rfl⟩ := List.exists_cons_of_ne_nil hs
  simp [get_astronomy_picture, DateArg.truthy, DateArg.isDatetimeOrStr, hbad]

theorem apod_malformed_date_witness :
    ("13-01-2022".toList ≠ [] ∧ parseDateChars "13-01-2022".toList = none) ∧
    (get_astronomy_picture (.str "13-01-2022".toList) = .valueError ∧
     get_astronomy_picture (.str []) = .request (.str [])) :=
  ⟨⟨by decide, by decide⟩,
   apod_malformed_date "13-01-2022".toList (by decide) (by decide)⟩

